import Mathlib

set_option maxRecDepth 16384

/-!
Verification of the CaDaBot source (`cadabot.py`): a Reddit bot that wishes
users a happy cake day and acknowledges thank-you replies.  The Python
functions are shallowly embedded as Lean functions; the sqlite-backed dict
`db` becomes an explicit association list threaded through the functions,
Python exceptions (`AssertionError` from the `assert`, `ValueError` from
`datetime.replace`) become an `Except` result, and the external
collaborators (Reddit client, VADER sentiment scorer, `random.choice`)
become explicit parameters.
-/

namespace CaDaBot

/-- A UTC instant broken into calendar and clock fields, the shape
`datetime.datetime` exposes (sub-second precision is dropped: every
timestamp the claims touch is whole seconds). -/
structure Datetime where
  year : Nat
  month : Nat
  day : Nat
  hour : Nat
  minute : Nat
  second : Nat
deriving DecidableEq, Repr

/-- Gregorian leap-year rule, as used by Python's `datetime` validation. -/
def isLeap (y : Nat) : Bool :=
  (y % 4 == 0 && y % 100 != 0) || y % 400 == 0

/-- Number of days in month `m` of year `y` (Gregorian calendar). -/
def daysInMonth (y m : Nat) : Nat :=
  if m = 2 then (if isLeap y then 29 else 28)
  else if m = 4 ∨ m = 6 ∨ m = 9 ∨ m = 11 then 30
  else 31

/-- Convert a count of days since 1970-01-01 to a Gregorian
(year, month, day) triple (standard civil-from-days algorithm,
restricted to nonnegative epochs). -/
def civilFromDays (z : Nat) : Nat × Nat × Nat :=
  let z' := z + 719468
  let era := z' / 146097
  let doe := z' % 146097
  let yoe := (doe - doe / 1460 + doe / 36524 - doe / 146096) / 365
  let y := yoe + era * 400
  let doy := doe - (365 * yoe + yoe / 4 - yoe / 100)
  let mp := (5 * doy + 2) / 153
  let d := doy - (153 * mp + 2) / 5 + 1
  let m := if mp < 10 then mp + 3 else mp - 9
  (if m ≤ 2 then y + 1 else y, m, d)

/-- The epoch-seconds to UTC-instant formula behind `utcfromtimestamp`. -/
def utcfromtimestampAux (t : Nat) : Datetime :=
  let days := t / 86400
  let secs := t % 86400
  let ymd := civilFromDays days
  { year := ymd.1, month := ymd.2.1, day := ymd.2.2,
    hour := secs / 3600, minute := secs % 3600 / 60, second := secs % 60 }

/-- `datetime.datetime.utcfromtimestamp`: epoch seconds to a UTC instant.
Both branches apply the same formula; the case split only stops
definitional unfolding on symbolic arguments (whose divisions would
otherwise be expanded endlessly) while literal arguments still reduce. -/
def utcfromtimestamp : Nat → Datetime
  | 0 => utcfromtimestampAux 0
  | t + 1 => utcfromtimestampAux (t + 1)

/-- `datetime.date()`: the calendar-date part of an instant. -/
def Datetime.date (d : Datetime) : Nat × Nat × Nat :=
  (d.year, d.month, d.day)

/-- The Python exceptions the embedded functions can raise. -/
inductive PyError where
  /-- The `assert` in `get_cakeday_status` failing (spec: `DataInconsistency`). -/
  | assertionError
  /-- `datetime.replace` rejecting an invalid date (Feb 29 in a non-leap year). -/
  | valueError
deriving DecidableEq, Repr

/-- `d.replace(year := y)`: keep every field but the year.  Python's
`datetime.replace` re-validates the result and raises `ValueError` when the
day does not exist in the new year's month (Feb 29 → non-leap year). -/
def replaceYear (d : Datetime) (y : Nat) : Except PyError Datetime :=
  if d.day ≤ daysInMonth y d.month then .ok { d with year := y }
  else .error .valueError

/-- One value of the `db` mapping: the per-user anniversary record. -/
structure UserRecord where
  created_utc : Nat
  years_wished_cakeday : List Nat
deriving DecidableEq, Repr

/-- The fields of a praw `Redditor` the code reads. -/
structure Redditor where
  name : String
  created_utc : Nat
deriving DecidableEq, Repr

/-- The sqlite-backed dict `db`, as an association list from username to
record, kept in insertion order like a Python dict. -/
abbrev Db := List (String × UserRecord)

/-- `db.get(k, None)`. -/
def dbGet : Db → String → Option UserRecord
  | [], _ => none
  | kv :: rest, k => if kv.1 = k then some kv.2 else dbGet rest k

/-- `db[k] = v`: overwrite in place if the key exists, else append
(Python dicts preserve insertion order). -/
def dbInsert : Db → String → UserRecord → Db
  | [], k, v => [(k, v)]
  | kv :: rest, k, v =>
      if kv.1 = k then (k, v) :: rest else kv :: dbInsert rest k v

/-- `del db[k]`. -/
def dbDelete (db : Db) (k : String) : Db :=
  db.filter (fun kv => kv.1 ≠ k)

/-- `get_cakeday_status(redditor)`: return the stored record for
`redditor.name`, asserting its `created_utc` matches the freshly observed
one; create and persist a fresh record (empty `years_wished_cakeday`) on
first sight.  Returns the record together with the possibly-updated db. -/
def get_cakeday_status (db : Db) (redditor : Redditor) :
    Except PyError (UserRecord × Db) :=
  match dbGet db redditor.name with
  | some user =>
      if redditor.created_utc = user.created_utc then .ok (user, db)
      else .error .assertionError
  | none =>
      let fresh : UserRecord := { created_utc := redditor.created_utc, years_wished_cakeday := [] }
      .ok (fresh, dbInsert db redditor.name fresh)

/-- The behaviour of `inflect`'s `p.ordinal` on a nonnegative integer:
append "st"/"nd"/"rd"/"th" according to the last digit, with the 11/12/13
exception. -/
def ordinal (n : Nat) : String :=
  let suffix :=
    if n % 100 = 11 ∨ n % 100 = 12 ∨ n % 100 = 13 then "th"
    else if n % 10 = 1 then "st"
    else if n % 10 = 2 then "nd"
    else if n % 10 = 3 then "rd"
    else "th"
  toString n ++ suffix

/-- The f-string `f"{age_ordinal[:-2]}^{age_ordinal[-2:]}"`: insert a `^`
before the last two characters, rendering the ordinal suffix
superscript-style in Reddit markup. -/
def superscriptLast2 (s : String) : String :=
  String.mk (s.data.take (s.data.length - 2)) ++ "^" ++
    String.mk (s.data.drop (s.data.length - 2))

/-- `choose_cakeday_wish(age_str)`: the congratulatory wish text.
`random.choice` over the three emojis is modelled by the explicit index
`choice` (taken mod the list length). -/
def choose_cakeday_wish (age_str : String) (choice : Nat) : String :=
  let emojis := ["😄", "😃", "🍰"]
  let emoji := emojis.getD (choice % emojis.length) ""
  "Happy " ++ age_str ++ " cake day! " ++ emoji

/-- The fields of a praw submission/comment that the two decision
functions read.  `parentAuthorName` / `grandparentAuthorName` model
`post.parent().author` and `post.parent().parent().author` (praw compares
a Redditor to a string by name); `replyAuthorNames` models the authors of
`post.replies` after `post.refresh()`. -/
structure Post where
  author : Redditor
  /-- `isinstance(post, praw.models.Comment)`. -/
  isComment : Bool
  body : String
  parentAuthorName : String
  grandparentAuthorName : String
  replyAuthorNames : List String
deriving DecidableEq, Repr

/-- `post_if_cakeday(post, tnow)`.  The returned `Option String` is the
reply text posted (`none` when no reply was sent), paired with the db
after the call; `emojiChoice` stands in for `random.choice`. -/
def post_if_cakeday (db : Db) (post : Post) (tnow : Datetime)
    (emojiChoice : Nat) : Except PyError (Option String × Db) :=
  match get_cakeday_status db post.author with
  | .error e => .error e
  | .ok (status, db₁) =>
    if tnow.year ∈ status.years_wished_cakeday then .ok (none, db₁)
    else
      let cakeday := utcfromtimestamp status.created_utc
      if cakeday.year = tnow.year then .ok (none, db₁)
      else
        match replaceYear cakeday tnow.year with
        | .error e => .error e
        | .ok cakeday_this_year =>
          if cakeday_this_year.date = tnow.date then
            let age := tnow.year - cakeday.year
            let age_str := superscriptLast2 (ordinal age)
            let text := choose_cakeday_wish age_str emojiChoice
            let status' := { status with
              years_wished_cakeday := status.years_wished_cakeday ++ [tnow.year] }
            .ok (some text, dbInsert db₁ post.author.name status')
          else .ok (none, db₁)

/-- The `pos` and `neg` entries of `sia.polarity_scores(text)` (the VADER
sentiment collaborator); scores are modelled as rationals. -/
structure Polarity where
  pos : Rat
  neg : Rat
deriving DecidableEq, Repr

/-- `"thank" in s`: substring containment. -/
def strContains (s pat : String) : Bool :=
  decide (pat.data <:+: s.data)

/-- `s.lower()`: character-wise lowercasing (ASCII, which covers the
"thank" detection the code performs with it). -/
def strLower (s : String) : String :=
  String.mk (s.data.map Char.toLower)

/-- The fixed acknowledgment templates of
`post_if_response_to_cakeday_wish`. -/
def thankYouOptions : List String :=
  ["You're welcome! See you next year! 😄",
   "You're welcome! 🙂 Have a great day!",
   "You're welcome! May the karma gods shine favourably upon you ✨"]

/-- The early-return checks of `post_if_response_to_cakeday_wish` that
follow the record fetch and the year replacement, in source order:
anniversary is today, comment type, "thank" substring, sentiment,
parent is the bot, grandparent is the reply's author, no existing bot
reply; on success, reply with one of the fixed templates. -/
def thankyou_checks (post : Post) (tnow : Datetime) (sia : String → Polarity)
    (choice : Nat) (db₁ : Db) (cakeday_this_year : Datetime) :
    Except PyError (Option String × Db) :=
  if cakeday_this_year.date ≠ tnow.date then .ok (none, db₁)
  else if post.isComment = false then .ok (none, db₁)
  else if strContains (strLower post.body) "thank" = false then .ok (none, db₁)
  else if ¬ ((sia post.body).pos > 0.4 ∧ (sia post.body).neg = 0) then .ok (none, db₁)
  else if post.parentAuthorName ≠ "CaDaBot" then .ok (none, db₁)
  else if post.grandparentAuthorName ≠ post.author.name then .ok (none, db₁)
  else if "CaDaBot" ∈ post.replyAuthorNames then .ok (none, db₁)
  else .ok (some (thankYouOptions.getD (choice % thankYouOptions.length) ""), db₁)

/-- `post_if_response_to_cakeday_wish(post, tnow)`.  The sentiment scorer
`sia` is an explicit parameter; `choice` stands in for `random.choice`
over the acknowledgment templates.  Returns the acknowledgment text
posted (`none` when no reply was sent) and the db after the call. -/
def post_if_response_to_cakeday_wish (db : Db) (post : Post)
    (tnow : Datetime) (sia : String → Polarity) (choice : Nat) :
    Except PyError (Option String × Db) :=
  match get_cakeday_status db post.author with
  | .error e => .error e
  | .ok (status, db₁) =>
    let cakeday := utcfromtimestamp status.created_utc
    match replaceYear cakeday tnow.year with
    | .error e => .error e
    | .ok cakeday_this_year => thankyou_checks post tnow sia choice db₁ cakeday_this_year

/-- `remove_old_cakedays()`: collect every key whose record's creation
(day, month) differs from today's and delete those keys.  The source reads
`datetime.datetime.utcnow()` itself; here the instant is the explicit
parameter `tnow`. -/
def remove_old_cakedays (db : Db) (tnow : Datetime) : Db :=
  let today_dm := (tnow.day, tnow.month)
  let to_remove := (db.filter (fun kv =>
      let t_created := utcfromtimestamp kv.2.created_utc
      decide ((t_created.day, t_created.month) ≠ today_dm))).map (fun kv => kv.1)
  to_remove.foldl dbDelete db

/-- The midnight guard at the top of `run`'s loop body: seconds slept
before processing the item (`time.sleep(60 * 20)` when
`tnow.hour == 23 and tnow.minute > 45`, nothing otherwise). -/
def run_midnight_sleep_seconds (tnow : Datetime) : Nat :=
  if tnow.hour = 23 ∧ tnow.minute > 45 then 60 * 20 else 0

/-- Outcome of one invocation of `run(sub)`: a normal return, a
`KeyboardInterrupt`, or some other exception with its message. -/
inductive RunOutcome where
  | ok
  | keyboardInterrupt
  | exception (msg : String)
deriving DecidableEq, Repr

/-- Observable result of `run_with_exception_handling` on a trace of
`run` outcomes.  `retries` counts the re-invocations of the wrapper (one
warning logged each); `depth` counts how many of those re-invocations are
nested on the call stack when the innermost `run` returns — the source
restarts by calling itself inside its own `except` handler, so each retry
adds a stack frame; `sleptSeconds` is the total backoff slept. -/
inductive WrapperResult where
  | finished (retries depth sleptSeconds : Nat)
  | interrupted (retries : Nat)
  | exhausted
deriving DecidableEq, Repr

/-- `run_with_exception_handling(sub)`, with the successive outcomes of
`run` supplied as an explicit trace.  A `KeyboardInterrupt` is re-raised;
any other exception logs a warning, sleeps 60 seconds, and re-invokes the
wrapper recursively on the rest of the trace. -/
def run_with_exception_handling : List RunOutcome → WrapperResult
  | [] => .exhausted
  | .ok :: _ => .finished 0 0 0
  | .keyboardInterrupt :: _ => .interrupted 0
  | .exception _ :: rest =>
      match run_with_exception_handling rest with
      | .finished r d s => .finished (r + 1) (d + 1) (s + 60)
      | .interrupted r => .interrupted (r + 1)
      | .exhausted => .exhausted

/-- The fields of a fetched stream item that `submissions_and_comments`
reads; `id` keeps items distinguishable. -/
structure StreamItem where
  id : String
  created_utc : Nat
deriving DecidableEq, Repr

/-- `submissions_and_comments(subreddit)`: concatenate the latest
submissions and the latest comments and stable-sort by `created_utc`
descending (`results.sort(key=..., reverse=True)`); the two fetches are
explicit parameters. -/
def submissions_and_comments (subs comments : List StreamItem) :
    List StreamItem :=
  (subs ++ comments).mergeSort (fun a b => b.created_utc ≤ a.created_utc)

/-! ### Sample data used by the concrete witnesses -/

/-- A user created at 2015-03-14T10:00:00Z (epoch 1426327200). -/
def alice : Redditor := { name := "alice", created_utc := 1426327200 }

/-- A db holding alice's record with no year wished yet. -/
def sampleDb : Db :=
  [("alice", { created_utc := 1426327200, years_wished_cakeday := [] })]

/-- A submission authored by alice. -/
def alicePost : Post :=
  { author := alice, isComment := false, body := "",
    parentAuthorName := "", grandparentAuthorName := "", replyAuthorNames := [] }

/-- 2024-03-14T09:00:00Z: alice's ninth cake day. -/
def t2024 : Datetime :=
  { year := 2024, month := 3, day := 14, hour := 9, minute := 0, second := 0 }

/-! ### Helper lemmas -/

lemma dbGet_dbInsert_self (db : Db) (k : String) (v : UserRecord) :
    dbGet (dbInsert db k v) k = some v := by
  induction db with
  | nil => simp [dbInsert, dbGet]
  | cons kv rest ih =>
    by_cases h : kv.1 = k
    · simp [dbInsert, h, dbGet]
    · simp [dbInsert, h, dbGet, ih]

lemma get_cakeday_status_none (db : Db) (r : Redditor)
    (hg : dbGet db r.name = none) :
    get_cakeday_status db r =
      .ok ({ created_utc := r.created_utc, years_wished_cakeday := [] },
        dbInsert db r.name { created_utc := r.created_utc, years_wished_cakeday := [] }) := by
  unfold get_cakeday_status
  rw [hg]

lemma get_cakeday_status_some (db : Db) (r : Redditor) (u : UserRecord)
    (hg : dbGet db r.name = some u) :
    get_cakeday_status db r =
      if r.created_utc = u.created_utc then .ok (u, db)
      else .error .assertionError := by
  unfold get_cakeday_status
  rw [hg]

lemma get_cakeday_status_inv (db : Db) (r : Redditor) (status : UserRecord)
    (db₁ : Db) (h : get_cakeday_status db r = .ok (status, db₁)) :
    r.created_utc = status.created_utc ∧
      ((dbGet db r.name = some status ∧ db₁ = db) ∨
       (dbGet db r.name = none ∧
        status = { created_utc := r.created_utc, years_wished_cakeday := [] } ∧
        db₁ = dbInsert db r.name status)) := by
  cases hg : dbGet db r.name with
  | none =>
    rw [get_cakeday_status_none db r hg] at h
    injection h with h'
    injection h' with h1 h2
    subst h1
    subst h2
    exact ⟨rfl, .inr ⟨rfl, rfl, rfl⟩⟩
  | some u =>
    rw [get_cakeday_status_some db r u hg] at h
    by_cases hc : r.created_utc = u.created_utc
    · rw [if_pos hc] at h
      injection h with h'
      injection h' with h1 h2
      subst h1
      subst h2
      exact ⟨hc, .inl ⟨rfl, rfl⟩⟩
    · rw [if_neg hc] at h
      exact absurd h (by simp)

lemma replaceYear_ok (d : Datetime) (y : Nat) (c : Datetime)
    (h : replaceYear d y = .ok c) : c = { d with year := y } := by
  unfold replaceYear at h
  by_cases hd : d.day ≤ daysInMonth y d.month
  · rw [if_pos hd] at h
    injection h with h'
    exact h'.symm
  · rw [if_neg hd] at h
    exact absurd h (by simp)

lemma replaceYear_feb29 (d : Datetime) (y : Nat) (hm : d.month = 2)
    (hd : d.day = 29) (hl : isLeap y = false) :
    replaceYear d y = .error .valueError := by
  unfold replaceYear daysInMonth
  rw [hm, hd, hl]
  simp

lemma post_if_cakeday_status_err (db : Db) (post : Post) (tnow : Datetime)
    (e : Nat) (err : PyError)
    (hst : get_cakeday_status db post.author = .error err) :
    post_if_cakeday db post tnow e = .error err := by
  unfold post_if_cakeday
  rw [hst]

lemma post_if_cakeday_unfold (db : Db) (post : Post) (tnow : Datetime)
    (e : Nat) (status : UserRecord) (db₁ : Db) (cty : Datetime)
    (hst : get_cakeday_status db post.author = .ok (status, db₁))
    (hrep : replaceYear (utcfromtimestamp status.created_utc) tnow.year = .ok cty) :
    post_if_cakeday db post tnow e =
      if tnow.year ∈ status.years_wished_cakeday then .ok (none, db₁)
      else if (utcfromtimestamp status.created_utc).year = tnow.year then .ok (none, db₁)
      else if cty.date = tnow.date then
        .ok (some (choose_cakeday_wish
              (superscriptLast2 (ordinal (tnow.year - (utcfromtimestamp status.created_utc).year))) e),
          dbInsert db₁ post.author.name
            { status with years_wished_cakeday := status.years_wished_cakeday ++ [tnow.year] })
      else .ok (none, db₁) := by
  unfold post_if_cakeday
  rw [hst]
  simp only [hrep]

lemma post_if_cakeday_repl_err (db : Db) (post : Post) (tnow : Datetime)
    (e : Nat) (status : UserRecord) (db₁ : Db) (err : PyError)
    (hst : get_cakeday_status db post.author = .ok (status, db₁))
    (hy : tnow.year ∉ status.years_wished_cakeday)
    (hyr : (utcfromtimestamp status.created_utc).year ≠ tnow.year)
    (hrep : replaceYear (utcfromtimestamp status.created_utc) tnow.year = .error err) :
    post_if_cakeday db post tnow e = .error err := by
  unfold post_if_cakeday
  rw [hst]
  simp [hrep, hy, hyr]

lemma post_if_cakeday_mem (db : Db) (post : Post) (tnow : Datetime) (e : Nat)
    (status : UserRecord) (db₁ : Db)
    (hst : get_cakeday_status db post.author = .ok (status, db₁))
    (hy : tnow.year ∈ status.years_wished_cakeday) :
    post_if_cakeday db post tnow e = .ok (none, db₁) := by
  unfold post_if_cakeday
  rw [hst]
  simp [hy]

lemma post_if_cakeday_year_eq (db : Db) (post : Post) (tnow : Datetime) (e : Nat)
    (status : UserRecord) (db₁ : Db)
    (hst : get_cakeday_status db post.author = .ok (status, db₁))
    (hyr : (utcfromtimestamp status.created_utc).year = tnow.year) :
    post_if_cakeday db post tnow e = .ok (none, db₁) := by
  unfold post_if_cakeday
  rw [hst]
  by_cases hy : tnow.year ∈ status.years_wished_cakeday
  · simp [hy]
  · simp [hy, hyr]

lemma post_if_cakeday_fires (db : Db) (post : Post) (tnow : Datetime) (e : Nat)
    (status : UserRecord) (db₁ : Db) (cty : Datetime)
    (hst : get_cakeday_status db post.author = .ok (status, db₁))
    (hy : tnow.year ∉ status.years_wished_cakeday)
    (hyr : (utcfromtimestamp status.created_utc).year ≠ tnow.year)
    (hrep : replaceYear (utcfromtimestamp status.created_utc) tnow.year = .ok cty)
    (hd : cty.date = tnow.date) :
    post_if_cakeday db post tnow e = .ok
      (some (choose_cakeday_wish
        (superscriptLast2 (ordinal (tnow.year - (utcfromtimestamp status.created_utc).year))) e),
       dbInsert db₁ post.author.name
         { status with years_wished_cakeday := status.years_wished_cakeday ++ [tnow.year] }) := by
  rw [post_if_cakeday_unfold db post tnow e status db₁ cty hst hrep,
    if_neg hy, if_neg hyr, if_pos hd]

lemma post_if_cakeday_miss (db : Db) (post : Post) (tnow : Datetime) (e : Nat)
    (status : UserRecord) (db₁ : Db) (cty : Datetime)
    (hst : get_cakeday_status db post.author = .ok (status, db₁))
    (hy : tnow.year ∉ status.years_wished_cakeday)
    (hyr : (utcfromtimestamp status.created_utc).year ≠ tnow.year)
    (hrep : replaceYear (utcfromtimestamp status.created_utc) tnow.year = .ok cty)
    (hd : cty.date ≠ tnow.date) :
    post_if_cakeday db post tnow e = .ok (none, db₁) := by
  rw [post_if_cakeday_unfold db post tnow e status db₁ cty hst hrep,
    if_neg hy, if_neg hyr, if_neg hd]

lemma post_if_cakeday_fired (db : Db) (post : Post) (tnow : Datetime) (e : Nat)
    (t : String) (db' : Db)
    (h : post_if_cakeday db post tnow e = .ok (some t, db')) :
    ∃ status db₁ cty, get_cakeday_status db post.author = .ok (status, db₁) ∧
      tnow.year ∉ status.years_wished_cakeday ∧
      (utcfromtimestamp status.created_utc).year ≠ tnow.year ∧
      replaceYear (utcfromtimestamp status.created_utc) tnow.year = .ok cty ∧
      cty.date = tnow.date ∧
      db' = dbInsert db₁ post.author.name
        { status with years_wished_cakeday := status.years_wished_cakeday ++ [tnow.year] } ∧
      t = choose_cakeday_wish
        (superscriptLast2 (ordinal (tnow.year - (utcfromtimestamp status.created_utc).year))) e := by
  cases hst : get_cakeday_status db post.author with
  | error err =>
    rw [post_if_cakeday_status_err db post tnow e err hst] at h
    exact absurd h (by simp)
  | ok p =>
    obtain ⟨status, db₁⟩ := p
    by_cases hy : tnow.year ∈ status.years_wished_cakeday
    · rw [post_if_cakeday_mem db post tnow e status db₁ hst hy] at h
      exact absurd h (by simp)
    · by_cases hyr : (utcfromtimestamp status.created_utc).year = tnow.year
      · rw [post_if_cakeday_year_eq db post tnow e status db₁ hst hyr] at h
        exact absurd h (by simp)
      · cases hrep : replaceYear (utcfromtimestamp status.created_utc) tnow.year with
        | error err =>
          rw [post_if_cakeday_repl_err db post tnow e status db₁ err hst hy hyr hrep] at h
          exact absurd h (by simp)
        | ok cty =>
          by_cases hd : cty.date = tnow.date
          · rw [post_if_cakeday_fires db post tnow e status db₁ cty hst hy hyr hrep hd] at h
            injection h with h'
            injection h' with ht hdb
            injection ht with ht'
            exact ⟨status, db₁, cty, rfl, hy, hyr, hrep, hd, hdb.symm, ht'.symm⟩
          · rw [post_if_cakeday_miss db post tnow e status db₁ cty hst hy hyr hrep hd] at h
            exact absurd h (by simp)

/-! ### C1: idempotence of the cake-day wish -/

/-- C1.  Once `tnow.year` is already in the author's `years_wished_cakeday`,
`post_if_cakeday` sends no reply and returns the db unchanged; and after any
invocation that did send a wish, re-invoking on the resulting db is a no-op
(no reply, db unchanged). -/
theorem cakeday_wish_idempotent (db : Db) (post : Post) (tnow : Datetime)
    (e₁ e₂ : Nat) :
    (∀ status, dbGet db post.author.name = some status →
        post.author.created_utc = status.created_utc →
        tnow.year ∈ status.years_wished_cakeday →
        post_if_cakeday db post tnow e₁ = .ok (none, db))
    ∧ (∀ t db', post_if_cakeday db post tnow e₁ = .ok (some t, db') →
        post_if_cakeday db' post tnow e₂ = .ok (none, db')) := by
  constructor
  · intro status hget hcr hy
    have hst : get_cakeday_status db post.author = .ok (status, db) := by
      rw [get_cakeday_status_some db post.author status hget, if_pos hcr]
    exact post_if_cakeday_mem db post tnow e₁ status db hst hy
  · intro t db' h
    obtain ⟨status, db₁, cty, hst, hy, hyr, hrep, hdate, hdb, ht⟩ :=
      post_if_cakeday_fired db post tnow e₁ t db' h
    have hcr := (get_cakeday_status_inv db post.author status db₁ hst).1
    have hget' : dbGet db' post.author.name =
        some { status with years_wished_cakeday := status.years_wished_cakeday ++ [tnow.year] } := by
      rw [hdb]
      exact dbGet_dbInsert_self db₁ post.author.name _
    have hst' : get_cakeday_status db' post.author =
        .ok ({ status with years_wished_cakeday := status.years_wished_cakeday ++ [tnow.year] }, db') := by
      rw [get_cakeday_status_some db' post.author _ hget', if_pos hcr]
    exact post_if_cakeday_mem db' post tnow e₂ _ db' hst' (by simp)

/-- Witness for C1: alice (created 2015-03-14) with 2024 already wished is
skipped; a fresh record is wished once on 2024-03-14 and the re-invocation
on the resulting db is a no-op. -/
theorem cakeday_wish_idempotent_witness :
    post_if_cakeday [("alice", { created_utc := 1426327200, years_wished_cakeday := [2024] })]
        alicePost t2024 0 =
      .ok (none, [("alice", { created_utc := 1426327200, years_wished_cakeday := [2024] })]) ∧
    post_if_cakeday sampleDb alicePost t2024 2 =
      .ok (some "Happy 9^th cake day! 🍰",
        [("alice", { created_utc := 1426327200, years_wished_cakeday := [2024] })]) ∧
    post_if_cakeday [("alice", { created_utc := 1426327200, years_wished_cakeday := [2024] })]
        alicePost t2024 0 =
      .ok (none, [("alice", { created_utc := 1426327200, years_wished_cakeday := [2024] })]) := by
  have hfire : post_if_cakeday sampleDb alicePost t2024 2 =
      .ok (some "Happy 9^th cake day! 🍰",
        [("alice", { created_utc := 1426327200, years_wished_cakeday := [2024] })]) := by
    rfl
  refine ⟨?_, hfire, ?_⟩
  · exact (cakeday_wish_idempotent _ alicePost t2024 0 0).1 _ rfl rfl (by decide)
  · exact (cakeday_wish_idempotent sampleDb alicePost t2024 2 0).2 _ _ hfire

/-! ### C5: getOrCreate behaviour of the record store -/

/-- C5.  `get_cakeday_status` creates and persists a fresh record (empty
`years_wished_cakeday`) for an unseen username, returns the stored record
unchanged when the observed `created_utc` matches, and fails with the
assertion error when it differs. -/
theorem get_or_create_spec (db : Db) (r : Redditor) :
    (dbGet db r.name = none →
      get_cakeday_status db r =
        .ok ({ created_utc := r.created_utc, years_wished_cakeday := [] },
          dbInsert db r.name { created_utc := r.created_utc, years_wished_cakeday := [] }) ∧
      dbGet (dbInsert db r.name { created_utc := r.created_utc, years_wished_cakeday := [] }) r.name =
        some { created_utc := r.created_utc, years_wished_cakeday := [] })
    ∧ (∀ u, dbGet db r.name = some u → r.created_utc = u.created_utc →
        get_cakeday_status db r = .ok (u, db))
    ∧ (∀ u, dbGet db r.name = some u → r.created_utc ≠ u.created_utc →
        get_cakeday_status db r = .error .assertionError) := by
  refine ⟨fun hg => ⟨get_cakeday_status_none db r hg, dbGet_dbInsert_self db r.name _⟩, ?_, ?_⟩
  · intro u hg hc
    rw [get_cakeday_status_some db r u hg, if_pos hc]
  · intro u hg hc
    rw [get_cakeday_status_some db r u hg, if_neg hc]

/-- Witness for C5: first sight of alice creates her record; the same
observed `created_utc` returns it unchanged; a different one fails. -/
theorem get_or_create_spec_witness :
    get_cakeday_status [] alice =
      .ok ({ created_utc := 1426327200, years_wished_cakeday := [] }, sampleDb) ∧
    get_cakeday_status sampleDb alice =
      .ok ({ created_utc := 1426327200, years_wished_cakeday := [] }, sampleDb) ∧
    get_cakeday_status sampleDb { name := "alice", created_utc := 999 } =
      .error .assertionError := by
  refine ⟨?_, ?_, ?_⟩
  · exact ((get_or_create_spec [] alice).1 rfl).1
  · exact (get_or_create_spec sampleDb alice).2.1 _ rfl rfl
  · exact (get_or_create_spec sampleDb { name := "alice", created_utc := 999 }).2.2 _ rfl
      (by decide)

/-! ### C3: exact (day, month) matching and ordinal age -/

/-- C3.  With a resolvable record, the current year not yet wished, a
creation year different from `tnow.year`, and a valid year replacement,
the wish fires exactly when the creation (day, month) equals today's
(day, month) — the creation year is irrelevant — and on a match the reply
text renders `tnow.year - creationYear` as an ordinal with a
superscript-style suffix, and the year is recorded. -/
theorem cakeday_fires_iff_day_month (db : Db) (post : Post) (tnow : Datetime)
    (e : Nat) (status : UserRecord) (db₁ : Db) (cty : Datetime)
    (hst : get_cakeday_status db post.author = .ok (status, db₁))
    (hy : tnow.year ∉ status.years_wished_cakeday)
    (hyr : (utcfromtimestamp status.created_utc).year ≠ tnow.year)
    (hrep : replaceYear (utcfromtimestamp status.created_utc) tnow.year = .ok cty) :
    ((∃ t db₂, post_if_cakeday db post tnow e = .ok (some t, db₂)) ↔
      ((utcfromtimestamp status.created_utc).day = tnow.day ∧
       (utcfromtimestamp status.created_utc).month = tnow.month))
    ∧ ((utcfromtimestamp status.created_utc).day = tnow.day →
       (utcfromtimestamp status.created_utc).month = tnow.month →
       post_if_cakeday db post tnow e = .ok
         (some (choose_cakeday_wish
            (superscriptLast2 (ordinal (tnow.year - (utcfromtimestamp status.created_utc).year))) e),
          dbInsert db₁ post.author.name
            { status with years_wished_cakeday := status.years_wished_cakeday ++ [tnow.year] })) := by
  have hdateAll : ∀ D : Datetime, replaceYear D tnow.year = .ok cty →
      (cty.date = tnow.date ↔ (D.day = tnow.day ∧ D.month = tnow.month)) := by
    intro D hrepD
    have hcty := replaceYear_ok _ _ _ hrepD
    subst hcty
    constructor
    · intro h
      exact ⟨congrArg (fun p => p.2.2) h, congrArg (fun p => p.2.1) h⟩
    · rintro ⟨hd, hm⟩
      show (tnow.year, D.month, D.day) = (tnow.year, tnow.month, tnow.day)
      rw [hm, hd]
  have hdate := hdateAll _ hrep
  constructor
  · constructor
    · rintro ⟨t, db₂, h⟩
      obtain ⟨status₂, db₁₂, cty₂, hst₂, -, -, hrep₂, hd₂, -, -⟩ :=
        post_if_cakeday_fired db post tnow e t db₂ h
      have hpq : status₂ = status ∧ db₁₂ = db₁ := by
        have := hst.symm.trans hst₂
        injection this with h'
        injection h' with h1 h2
        exact ⟨h1.symm, h2.symm⟩
      obtain ⟨hps, hpd⟩ := hpq
      subst hps
      have hcc : cty₂ = cty := by
        have := hrep.symm.trans hrep₂
        injection this with h'
        exact h'.symm
      subst hcc
      exact hdate.mp hd₂
    · rintro ⟨hd, hm⟩
      exact ⟨_, _, post_if_cakeday_fires db post tnow e status db₁ cty hst hy hyr hrep
        (hdate.mpr ⟨hd, hm⟩)⟩
  · intro hd hm
    exact post_if_cakeday_fires db post tnow e status db₁ cty hst hy hyr hrep
      (hdate.mpr ⟨hd, hm⟩)

/-- Witness for C3: created 2015-03-14T10:00Z, now 2024-03-14T09:00Z — the
wish fires with ordinal age 9 rendered "9^th". -/
theorem cakeday_fires_iff_day_month_witness :
    post_if_cakeday sampleDb alicePost t2024 2 =
      .ok (some (choose_cakeday_wish (superscriptLast2 (ordinal 9)) 2),
        dbInsert sampleDb "alice" { created_utc := 1426327200, years_wished_cakeday := [2024] }) ∧
    choose_cakeday_wish (superscriptLast2 (ordinal 9)) 2 = "Happy 9^th cake day! 🍰" := by
  constructor
  · exact (cakeday_fires_iff_day_month sampleDb alicePost t2024 2
      { created_utc := 1426327200, years_wished_cakeday := [] } sampleDb
      { year := 2024, month := 3, day := 14, hour := 10, minute := 0, second := 0 }
      rfl (by decide) (by decide) rfl).2 rfl rfl
  · rfl

/-! ### C6: first-year exclusion -/

/-- C6.  When the observed account-creation year equals `tnow.year`,
`post_if_cakeday` never replies, and the only possible db change is the
creation of a fresh record with empty `years_wished_cakeday` — no year is
ever added. -/
theorem first_year_no_wish (db : Db) (post : Post) (tnow : Datetime) (e : Nat)
    (h : (utcfromtimestamp post.author.created_utc).year = tnow.year) :
    ∀ res db', post_if_cakeday db post tnow e = .ok (res, db') →
      res = none ∧
        (db' = db ∨
         db' = dbInsert db post.author.name
           { created_utc := post.author.created_utc, years_wished_cakeday := [] }) := by
  intro res db' hcall
  cases hst : get_cakeday_status db post.author with
  | error err =>
    rw [post_if_cakeday_status_err db post tnow e err hst] at hcall
    exact absurd hcall (by simp)
  | ok p =>
    obtain ⟨status, db₁⟩ := p
    obtain ⟨hcr, hdb⟩ := get_cakeday_status_inv db post.author status db₁ hst
    have step : post_if_cakeday db post tnow e = .ok (none, db₁) := by
      by_cases hy : tnow.year ∈ status.years_wished_cakeday
      · exact post_if_cakeday_mem db post tnow e status db₁ hst hy
      · refine post_if_cakeday_year_eq db post tnow e status db₁ hst ?_
        rw [← hcr]
        exact h
    rw [step] at hcall
    injection hcall with h'
    injection h' with h1 h2
    subst h2
    refine ⟨h1.symm, ?_⟩
    rcases hdb with ⟨-, hdb⟩ | ⟨-, hfresh, hdb⟩
    · exact .inl hdb
    · right
      rw [hdb, hfresh]

/-- A user created at 2024-02-29T00:00:00Z (epoch 1709164800) — the same
year as `t2024`. -/
def bob : Redditor := { name := "bob", created_utc := 1709164800 }

/-- A submission authored by bob. -/
def bobPost : Post :=
  { author := bob, isComment := false, body := "",
    parentAuthorName := "", grandparentAuthorName := "", replyAuthorNames := [] }

/-- Witness for C6: an account created 2024-02-29, processed on
2024-03-14 of the same year, gets no wish; its fresh record stays empty. -/
theorem first_year_no_wish_witness :
    (none : Option String) = none ∧
      (([("bob", { created_utc := 1709164800, years_wished_cakeday := [] })] : Db) = [] ∨
       ([("bob", { created_utc := 1709164800, years_wished_cakeday := [] })] : Db) =
         dbInsert [] bobPost.author.name
           { created_utc := bobPost.author.created_utc, years_wished_cakeday := [] }) := by
  exact first_year_no_wish [] bobPost t2024 0 rfl none _ rfl


/-! ### Thank-you detector lemmas -/

lemma thankyou_status_err (db : Db) (post : Post) (tnow : Datetime)
    (sia : String → Polarity) (choice : Nat) (err : PyError)
    (hst : get_cakeday_status db post.author = .error err) :
    post_if_response_to_cakeday_wish db post tnow sia choice = .error err := by
  unfold post_if_response_to_cakeday_wish
  rw [hst]

lemma thankyou_repl_err (db : Db) (post : Post) (tnow : Datetime)
    (sia : String → Polarity) (choice : Nat) (status : UserRecord) (db₁ : Db)
    (err : PyError)
    (hst : get_cakeday_status db post.author = .ok (status, db₁))
    (hrep : replaceYear (utcfromtimestamp status.created_utc) tnow.year = .error err) :
    post_if_response_to_cakeday_wish db post tnow sia choice = .error err := by
  unfold post_if_response_to_cakeday_wish
  rw [hst]
  simp only [hrep]

lemma thankyou_unfold (db : Db) (post : Post) (tnow : Datetime)
    (sia : String → Polarity) (choice : Nat) (status : UserRecord) (db₁ : Db)
    (cty : Datetime)
    (hst : get_cakeday_status db post.author = .ok (status, db₁))
    (hrep : replaceYear (utcfromtimestamp status.created_utc) tnow.year = .ok cty) :
    post_if_response_to_cakeday_wish db post tnow sia choice =
      thankyou_checks post tnow sia choice db₁ cty := by
  unfold post_if_response_to_cakeday_wish
  rw [hst]
  simp only [hrep]

/-! ### C2: the thank-you acknowledgment fires exactly on all conditions -/

/-- C2.  Given a resolvable record and a valid year replacement, the
thank-you acknowledgment is sent if and only if all of: the computed
anniversary equals today's date, the item is a comment, its lowered body
contains "thank", sentiment positive > 0.4 and negative = 0, the parent
was authored by the bot, the grandparent by the same user as the reply,
and no existing reply is the bot's; and at most one reply is sent — on
success it is exactly one of the fixed templates and the db is untouched. -/
theorem thankyou_reply_iff (db : Db) (post : Post) (tnow : Datetime)
    (sia : String → Polarity) (choice : Nat) (status : UserRecord) (db₁ : Db)
    (cty : Datetime)
    (hst : get_cakeday_status db post.author = .ok (status, db₁))
    (hrep : replaceYear (utcfromtimestamp status.created_utc) tnow.year = .ok cty) :
    ((∃ text, post_if_response_to_cakeday_wish db post tnow sia choice =
        .ok (some text, db₁)) ↔
      (cty.date = tnow.date ∧ post.isComment = true ∧
       strContains (strLower post.body) "thank" = true ∧
       (sia post.body).pos > 0.4 ∧ (sia post.body).neg = 0 ∧
       post.parentAuthorName = "CaDaBot" ∧
       post.grandparentAuthorName = post.author.name ∧
       "CaDaBot" ∉ post.replyAuthorNames))
    ∧ (∀ text db₂,
        post_if_response_to_cakeday_wish db post tnow sia choice = .ok (some text, db₂) →
        db₂ = db₁ ∧ text = thankYouOptions.getD (choice % thankYouOptions.length) "") := by
  refine ⟨?_, ?_⟩
  · rw [thankyou_unfold db post tnow sia choice status db₁ cty hst hrep]
    unfold thankyou_checks
    split_ifs <;> simp_all
  · rw [thankyou_unfold db post tnow sia choice status db₁ cty hst hrep]
    unfold thankyou_checks
    split_ifs <;> intro text db₂ hh <;> simp_all

/-- A thank-you comment from alice on her cake day, a direct reply to the
bot's wish, not yet acknowledged by the bot. -/
def thanksPost : Post :=
  { author := alice, isComment := true, body := "Thank you so much!",
    parentAuthorName := "CaDaBot", grandparentAuthorName := "alice",
    replyAuthorNames := ["bob"] }

/-- A sentiment scorer assigning positive 0.6 and negative 0 to any text. -/
def siaSample : String → Polarity := fun _ => { pos := 0.6, neg := 0 }

/-- Witness for C2: "Thank you so much!" with positive 0.6 / negative 0
and the right parent chain gets exactly one acknowledgment. -/
theorem thankyou_reply_iff_witness :
    ∃ text, post_if_response_to_cakeday_wish sampleDb thanksPost t2024 siaSample 0 =
      .ok (some text, sampleDb) := by
  exact (thankyou_reply_iff sampleDb thanksPost t2024 siaSample 0
      { created_utc := 1426327200, years_wished_cakeday := [] } sampleDb
      { year := 2024, month := 3, day := 14, hour := 10, minute := 0, second := 0 }
      rfl rfl).1.mpr
    ⟨rfl, rfl, by decide, by norm_num [siaSample], rfl, rfl, rfl, by decide⟩

/-! ### C10: February 29 records raise on non-leap years -/

/-- C10.  For a stored record created on February 29, when `tnow.year` is
not a leap year (and the guards before the year replacement pass, which is
the only situation reachable for such a record), both decision functions
raise `ValueError` from `datetime.replace` instead of skipping the item. -/
theorem feb29_raises_on_nonleap (db : Db) (post : Post) (tnow : Datetime)
    (e choice : Nat) (sia : String → Polarity) (status : UserRecord) (db₁ : Db)
    (hst : get_cakeday_status db post.author = .ok (status, db₁))
    (hm : (utcfromtimestamp status.created_utc).month = 2)
    (hd : (utcfromtimestamp status.created_utc).day = 29)
    (hl : isLeap tnow.year = false)
    (hy : tnow.year ∉ status.years_wished_cakeday)
    (hyr : (utcfromtimestamp status.created_utc).year ≠ tnow.year) :
    post_if_cakeday db post tnow e = .error .valueError ∧
    post_if_response_to_cakeday_wish db post tnow sia choice = .error .valueError := by
  have hrep := replaceYear_feb29 (utcfromtimestamp status.created_utc) tnow.year hm hd hl
  exact ⟨post_if_cakeday_repl_err db post tnow e status db₁ .valueError hst hy hyr hrep,
    thankyou_repl_err db post tnow sia choice status db₁ .valueError hst hrep⟩

/-- A user created at 2000-02-29T00:00:00Z (epoch 951782400). -/
def leapUser : Redditor := { name := "leap", created_utc := 951782400 }

/-- A comment authored by the Feb-29 user. -/
def leapPost : Post :=
  { author := leapUser, isComment := true, body := "",
    parentAuthorName := "", grandparentAuthorName := "", replyAuthorNames := [] }

/-- The db holding the Feb-29 user's record. -/
def leapDb : Db := [("leap", { created_utc := 951782400, years_wished_cakeday := [] })]

/-- 2023-03-01T12:00:00Z — a non-leap current year. -/
def t2023 : Datetime :=
  { year := 2023, month := 3, day := 1, hour := 12, minute := 0, second := 0 }

/-- Witness for C10: the 2000-02-29 record processed in 2023 raises
`ValueError` in both decision functions. -/
theorem feb29_raises_on_nonleap_witness :
    post_if_cakeday leapDb leapPost t2023 0 = .error .valueError ∧
    post_if_response_to_cakeday_wish leapDb leapPost t2023 siaSample 0 =
      .error .valueError := by
  exact feb29_raises_on_nonleap leapDb leapPost t2023 0 0 siaSample
    { created_utc := 951782400, years_wished_cakeday := [] } leapDb
    rfl rfl rfl rfl (by decide) (by decide)

/-! ### Purge lemmas -/

lemma mem_dbDelete (db : Db) (k : String) (kv : String × UserRecord) :
    kv ∈ dbDelete db k ↔ kv ∈ db ∧ kv.1 ≠ k := by
  unfold dbDelete
  simp [List.mem_filter]

lemma foldl_dbDelete_mem (ks : List String) (db : Db) (kv : String × UserRecord) :
    kv ∈ ks.foldl dbDelete db ↔ kv ∈ db ∧ kv.1 ∉ ks := by
  induction ks generalizing db with
  | nil => simp
  | cons k ks ih =>
    rw [List.foldl_cons, ih, mem_dbDelete]
    simp only [List.mem_cons, not_or]
    tauto

lemma nodup_key_eq (l : Db) (h : (l.map Prod.fst).Nodup)
    (a b : String × UserRecord) (ha : a ∈ l) (hb : b ∈ l) (hk : a.1 = b.1) :
    a = b := by
  induction l with
  | nil => cases ha
  | cons hd tl ih =>
    rw [List.map_cons, List.nodup_cons] at h
    rcases List.mem_cons.mp ha with rfl | ha'
    · rcases List.mem_cons.mp hb with rfl | hb'
      · rfl
      · refine absurd ?_ h.1
        rw [hk]
        exact List.mem_map_of_mem Prod.fst hb'
    · rcases List.mem_cons.mp hb with rfl | hb'
      · refine absurd ?_ h.1
        rw [← hk]
        exact List.mem_map_of_mem Prod.fst ha'
      · exact ih h.2 ha' hb'

/-! ### C4: purge keeps exactly the (day, month) matches -/

/-- C4.  With unique usernames (dict keys), `remove_old_cakedays` keeps
exactly the records whose creation (day, month) equals the reference
instant's (day, month), and deletes every other record. -/
theorem remove_old_cakedays_spec (db : Db) (tnow : Datetime)
    (hnd : (db.map Prod.fst).Nodup) :
    ∀ kv : String × UserRecord, kv ∈ remove_old_cakedays db tnow ↔
      (kv ∈ db ∧
       ((utcfromtimestamp kv.2.created_utc).day,
        (utcfromtimestamp kv.2.created_utc).month) = (tnow.day, tnow.month)) := by
  intro kv
  simp only [remove_old_cakedays]
  rw [foldl_dbDelete_mem]
  constructor
  · rintro ⟨hm, hnr⟩
    refine ⟨hm, ?_⟩
    by_contra hne
    exact hnr (List.mem_map.mpr ⟨kv, List.mem_filter.mpr ⟨hm, decide_eq_true hne⟩, rfl⟩)
  · rintro ⟨hm, heq⟩
    refine ⟨hm, ?_⟩
    intro hin
    obtain ⟨kv', hkv', hfst⟩ := List.mem_map.mp hin
    obtain ⟨hkv'db, hpred⟩ := List.mem_filter.mp hkv'
    have hkk : kv' = kv := nodup_key_eq db hnd kv' kv hkv'db hm hfst
    subst hkk
    simp only [decide_eq_true_eq] at hpred
    exact hpred heq

/-- Records created 2015-03-14, 2016-03-14 and 2015-03-20. -/
def purgeDb : Db :=
  [("a", { created_utc := 1426327200, years_wished_cakeday := [] }),
   ("b", { created_utc := 1426327200 + 366 * 86400, years_wished_cakeday := [] }),
   ("c", { created_utc := 1426327200 + 6 * 86400, years_wished_cakeday := [] })]

/-- Witness for C4: purging on March 14 keeps the two (14, 3) records and
drops the (20, 3) record. -/
theorem remove_old_cakedays_spec_witness :
    ("a", ({ created_utc := 1426327200, years_wished_cakeday := [] } : UserRecord)) ∈
      remove_old_cakedays purgeDb t2024 ∧
    ("b", ({ created_utc := 1426327200 + 366 * 86400, years_wished_cakeday := [] } : UserRecord)) ∈
      remove_old_cakedays purgeDb t2024 ∧
    ("c", ({ created_utc := 1426327200 + 6 * 86400, years_wished_cakeday := [] } : UserRecord)) ∉
      remove_old_cakedays purgeDb t2024 := by
  refine ⟨?_, ?_, ?_⟩
  · exact (remove_old_cakedays_spec purgeDb t2024 (by decide) _).mpr ⟨by decide, by decide⟩
  · exact (remove_old_cakedays_spec purgeDb t2024 (by decide) _).mpr ⟨by decide, by decide⟩
  · intro hmem
    obtain ⟨-, heq⟩ := (remove_old_cakedays_spec purgeDb t2024 (by decide) _).mp hmem
    exact absurd heq (by decide)

/-! ### C7 (corrected): the midnight guard starts at 23:46, not 23:45 -/

/-- 2024-03-14T23:45:00Z — within the last 15 minutes before midnight. -/
def quarterTo : Datetime :=
  { year := 2024, month := 3, day := 14, hour := 23, minute := 45, second := 0 }

/-- Counterexample to C7 as stated: 23:45:00 is on or after 23:45:00
(i.e. within the last 15 minutes before midnight), yet the worker loop
does not sleep there, because the source requires `tnow.minute > 45`. -/
theorem midnight_sleep_not_at_2345 :
    (23 * 3600 + 45 * 60 ≤
      quarterTo.hour * 3600 + quarterTo.minute * 60 + quarterTo.second) ∧
    run_midnight_sleep_seconds quarterTo = 0 := by
  decide

/-- C7 (amended).  For any clock-valid instant, the worker loop sleeps
20 minutes (1200 seconds) exactly when the time of day is at or after
23:46:00 — the last 14 minutes before midnight — and sleeps nothing
otherwise. -/
theorem midnight_sleep_iff (t : Datetime) (hh : t.hour < 24)
    (hm : t.minute < 60) (hs : t.second < 60) :
    (run_midnight_sleep_seconds t = 1200 ↔
      23 * 3600 + 46 * 60 ≤ t.hour * 3600 + t.minute * 60 + t.second) ∧
    (run_midnight_sleep_seconds t = 0 ↔
      t.hour * 3600 + t.minute * 60 + t.second < 23 * 3600 + 46 * 60) := by
  unfold run_midnight_sleep_seconds
  by_cases h : t.hour = 23 ∧ t.minute > 45
  · rw [if_pos h]
    obtain ⟨h1, h2⟩ := h
    constructor <;> constructor <;> intro h' <;> omega
  · rw [if_neg h]
    rw [not_and_or] at h
    constructor <;> constructor <;> intro h' <;> rcases h with h3 | h3 <;> omega

/-- 2024-03-14T23:46:00Z. -/
def tFourTo : Datetime :=
  { year := 2024, month := 3, day := 14, hour := 23, minute := 46, second := 0 }

/-- Witness for the amended C7: at 23:46:00 the loop sleeps 1200 seconds. -/
theorem midnight_sleep_iff_witness :
    run_midnight_sleep_seconds tFourTo = 1200 := by
  exact (midnight_sleep_iff tFourTo (by decide) (by decide) (by decide)).1.mpr (by decide)

/-! ### C8 (corrected): recovery behaviour is as specified but recursive -/

/-- Counterexample to C8 as stated: after two failures the wrapper's
re-invocation nesting depth is 2 — each retry happens inside the previous
call's handler, so the restart is recursive re-invocation, not an
iterative loop (which would keep the depth at zero). -/
theorem wrapper_restart_depth_grows :
    run_with_exception_handling
        (List.replicate 2 (RunOutcome.exception "boom") ++ [RunOutcome.ok]) =
      WrapperResult.finished 2 2 120 := by
  decide

/-- C8 (amended).  On each failure other than `KeyboardInterrupt` the
wrapper logs, sleeps a fixed 60 seconds, and restarts, with unbounded
retries and no backoff growth: `n` consecutive failures yield `n` retries
and `60 * n` seconds of backoff — but each retry adds one level of
recursive nesting (`depth = n`).  A `KeyboardInterrupt` is re-raised
without any retry. -/
theorem wrapper_recovery_spec (n : Nat) (m : String) (rest : List RunOutcome) :
    run_with_exception_handling (List.replicate n (.exception m) ++ [.ok]) =
      .finished n n (60 * n)
    ∧ run_with_exception_handling (.keyboardInterrupt :: rest) = .interrupted 0 := by
  constructor
  · induction n with
    | zero => rfl
    | succ k ih =>
      simp only [List.replicate_succ, List.cons_append]
      unfold run_with_exception_handling
      simp only [ih]
      congr 1
  · rfl

/-! ### C9: the merged batch is the concatenation sorted descending -/

/-- C9.  `submissions_and_comments` returns a permutation of the
concatenation of the two fetches, ordered by `created_utc` descending:
every item's creation timestamp is at least that of every later item. -/
theorem submissions_and_comments_sorted (subs comments : List StreamItem) :
    (submissions_and_comments subs comments).Perm (subs ++ comments) ∧
    List.Pairwise (fun a b : StreamItem => b.created_utc ≤ a.created_utc)
      (submissions_and_comments subs comments) := by
  constructor
  · exact List.mergeSort_perm (subs ++ comments) _
  · have h := @List.sorted_mergeSort StreamItem
      (fun a b : StreamItem => decide (b.created_utc ≤ a.created_utc))
      (fun a b c hab hbc => by
        simp only [decide_eq_true_eq] at hab hbc ⊢
        omega)
      (fun a b => by
        rcases Nat.le_total b.created_utc a.created_utc with hle | hle <;> simp [hle])
      (subs ++ comments)
    exact h.imp (fun hb => by simpa using hb)
